import Mathlib

/-!
Verification of the dynv6 libdns provider (provider.go).

The provider translates between the generic libdns record representation and
the dynv6 wire representation, and reconciles requested records against a
zone's existing records. The HTTP client methods (getZoneByName, getRecords,
addRecord, updateRecord, deleteRecord) are external collaborators; they are
modelled here as an abstract `Client` structure over an arbitrary state type,
together with one concrete instance (`fakeClient`) acting as an in-memory
dynv6 server for end-to-end statements.
-/

namespace Dynv6

/-- Model of `libdns.RR` (external libdns library): a DNS resource record
with Name, Type, Data and TTL. TTL (Go `time.Duration`, an int64) is an `Int`. -/
structure RR where
  name : String
  type : String
  data : String
  ttl : Int
deriving DecidableEq, Repr

/-- Model of the `libdns.Record` interface. A value is either concretely a
`libdns.RR` (the case recognised by the type assertion `r.(libdns.RR)` in the
Go code), or some other implementation of the interface. Every implementation
exposes an RR view (the interface method `RR()`), carried by both
constructors; `other` also carries the Go dynamic type name used by
`fmt.Errorf("unsupported record type: %T", ...)`. -/
inductive LibdnsRecord where
  | rr (v : RR)
  | other (view : RR) (typeName : String)
deriving DecidableEq, Repr

/-- The RR view of a libdns record (the libdns `Record.RR()` method). -/
def rrOf : LibdnsRecord → RR
  | LibdnsRecord.rr v => v
  | LibdnsRecord.other view _ => view

/-- Whether the record's dynamic type is exactly `libdns.RR`. -/
def isRR : LibdnsRecord → Bool
  | LibdnsRecord.rr _ => true
  | LibdnsRecord.other _ _ => false

/-- The internal dynv6 record structure (`record` in provider.go):
ID, Name, Type, Data, TTL. -/
structure record where
  id : Int
  name : String
  type : String
  data : String
  ttl : Int
deriving DecidableEq, Repr

/-- Errors. `zoneNotFound` and `transportError` come from the collaborator;
`unsupportedRecordType` models `fmt.Errorf("unsupported record type: %T", *r)`
and carries the dynamic type name; `recordNotFound` models
`fmt.Errorf("Record not found: %+v", r)` and carries the offending record. -/
inductive Err where
  | zoneNotFound
  | transportError (msg : String)
  | unsupportedRecordType (typeName : String)
  | recordNotFound (r : LibdnsRecord)
deriving DecidableEq, Repr

/-- A zone descriptor as returned by the collaborator's zone lookup. -/
structure Zone where
  id : Int
  name : String
deriving DecidableEq, Repr

/-- `getDataFromRecord` (provider.go): extracts `.Data` from a libdns record
via the type assertion `r.(libdns.RR)`; returns the empty string when the
record is not concretely a `libdns.RR`. -/
def getDataFromRecord : LibdnsRecord → String
  | LibdnsRecord.rr v => v.data
  | LibdnsRecord.other _ _ => ""

/-- `toLibdnsRecord` (provider.go): converts an internal dynv6 record to a
`libdns.RR`, dropping the ID. -/
def record.toLibdnsRecord (r : record) : LibdnsRecord :=
  LibdnsRecord.rr (RR.mk r.name r.type r.data r.ttl)

/-- `fromLibdnsRecord` (provider.go): builds a dynv6 record from a libdns
record; fails with the unsupported-record-type error when the record is not
concretely a `libdns.RR`. The zone argument is unused, as in the source. -/
def fromLibdnsRecord (zone : String) (r : LibdnsRecord) : Except Err record :=
  match r with
  | LibdnsRecord.rr v => Except.ok (record.mk 0 v.name v.type v.data v.ttl)
  | LibdnsRecord.other _ t => Except.error (Err.unsupportedRecordType t)

/-- Modelled from the spec: `findRecord` is called by SetRecords but its
definition is not among the given source files. Per the spec's matching
algorithm, it is a linear scan over the existing-records list comparing Name
and Type by exact string equality, first match returned. -/
def findRecord (existing : List record) (r : LibdnsRecord) : Option record :=
  existing.find? (fun e => e.name == (rrOf r).name && e.type == (rrOf r).type)

/-- Modelled from the spec: `findRecordWithValue` is called by DeleteRecords
but its definition is not among the given source files. Per the spec, it is
the stricter match: a linear scan comparing Name, Type and Data by exact
string equality, first match returned. -/
def findRecordWithValue (existing : List record) (r : LibdnsRecord) : Option record :=
  existing.find? (fun e =>
    e.name == (rrOf r).name && e.type == (rrOf r).type && e.data == (rrOf r).data)

/-- Modelled from the spec: the Provider's HTTP client methods
(`getZoneByName`, `getRecords`, `addRecord`, `updateRecord`, `deleteRecord`)
are external collaborators whose definitions are not among the given source
files. Each call takes and returns a collaborator state of an arbitrary type
`σ` and may fail with an error. -/
structure Client (σ : Type) where
  getZoneByName : String → σ → Except Err Zone × σ
  getRecords : Int → σ → Except Err (List record) × σ
  addRecord : Int → record → σ → Except Err record × σ
  updateRecord : Int → record → σ → Except Err record × σ
  deleteRecord : Int → Int → σ → Except Err Unit × σ

/-- `GetRecords` (provider.go): resolve the zone, list its dynv6 records and
translate each to a libdns record. Matching Go's `([]libdns.Record, error)`
return, the result is a record list paired with an optional error. -/
def GetRecords {σ : Type} (C : Client σ) (zone : String) (st : σ) :
    (List LibdnsRecord × Option Err) × σ :=
  match C.getZoneByName zone st with
  | (Except.error e, st1) => (([], some e), st1)
  | (Except.ok zoneDetails, st1) =>
    match C.getRecords zoneDetails.id st1 with
    | (Except.error e, st2) => (([], some e), st2)
    | (Except.ok dynv6Records, st2) =>
      ((dynv6Records.map record.toLibdnsRecord, none), st2)

/-- The body of one `AppendRecords` loop iteration: translate the libdns
record and issue the create call, propagating the first error. -/
def appendStep {σ : Type} (C : Client σ) (zone : String) (zid : Int)
    (r : LibdnsRecord) (st : σ) : Except Err record × σ :=
  match fromLibdnsRecord zone r with
  | Except.error e => (Except.error e, st)
  | Except.ok dynv6Rec => C.addRecord zid dynv6Rec st

/-- The `AppendRecords` loop (provider.go lines 81-93): process records in
order, stop at the first failure, return the translations of the records
created so far. -/
def appendLoop {σ : Type} (C : Client σ) (zone : String) (zid : Int) :
    List LibdnsRecord → List LibdnsRecord → σ → (List LibdnsRecord × Option Err) × σ
  | [], results, st => ((results, none), st)
  | r :: rest, results, st =>
    match appendStep C zone zid r st with
    | (Except.error e, st1) => ((results, some e), st1)
    | (Except.ok result, st1) =>
      appendLoop C zone zid rest (results ++ [result.toLibdnsRecord]) st1

/-- `AppendRecords` (provider.go): resolve the zone, then run the create
loop starting from an empty result list. -/
def AppendRecords {σ : Type} (C : Client σ) (zone : String)
    (recs : List LibdnsRecord) (st : σ) : (List LibdnsRecord × Option Err) × σ :=
  match C.getZoneByName zone st with
  | (Except.error e, st1) => (([], some e), st1)
  | (Except.ok zoneDetails, st1) => appendLoop C zone zoneDetails.id recs [] st1

/-- The body of one `SetRecords` loop iteration (provider.go lines 108-128):
look for an existing record matching on Name and Type in the snapshot; if
found, issue an update carrying the existing record's ID, Name, Type and TTL
with Data replaced by the requested data; otherwise translate the record and
issue a create call. -/
def setStep {σ : Type} (C : Client σ) (zone : String) (zid : Int)
    (existingRecords : List record) (r : LibdnsRecord) (st : σ) :
    Except Err record × σ :=
  match findRecord existingRecords r with
  | some existingRecord =>
    C.updateRecord zid
      (record.mk existingRecord.id existingRecord.name existingRecord.type
        (getDataFromRecord r) existingRecord.ttl) st
  | none =>
    match fromLibdnsRecord zone r with
    | Except.error e => (Except.error e, st)
    | Except.ok newRecord => C.addRecord zid newRecord st

/-- The `SetRecords` loop (provider.go lines 106-131): the existing-records
snapshot is fixed for the whole loop; each successful step appends the
translation of the collaborator's returned record to the results. -/
def setLoop {σ : Type} (C : Client σ) (zone : String) (zid : Int)
    (existingRecords : List record) :
    List LibdnsRecord → List LibdnsRecord → σ → (List LibdnsRecord × Option Err) × σ
  | [], results, st => ((results, none), st)
  | r :: rest, results, st =>
    match setStep C zone zid existingRecords r st with
    | (Except.error e, st1) => ((results, some e), st1)
    | (Except.ok result, st1) =>
      setLoop C zone zid existingRecords rest (results ++ [result.toLibdnsRecord]) st1

/-- `SetRecords` (provider.go): resolve the zone, fetch the existing records
once, then run the update-or-create loop. -/
def SetRecords {σ : Type} (C : Client σ) (zone : String)
    (recs : List LibdnsRecord) (st : σ) : (List LibdnsRecord × Option Err) × σ :=
  match C.getZoneByName zone st with
  | (Except.error e, st1) => (([], some e), st1)
  | (Except.ok zoneDetails, st1) =>
    match C.getRecords zoneDetails.id st1 with
    | (Except.error e, st2) => (([], some e), st2)
    | (Except.ok existingRecords, st2) =>
      setLoop C zone zoneDetails.id existingRecords recs [] st2

/-- The `DeleteRecords` loop (provider.go lines 144-156): for each requested
record, look for an existing record matching on Name, Type and Data in the
snapshot; with no match, stop with the record-not-found error; otherwise
issue the delete by ID and append the requested record itself to the
results. -/
def deleteLoop {σ : Type} (C : Client σ) (zid : Int)
    (existingRecords : List record) :
    List LibdnsRecord → List LibdnsRecord → σ → (List LibdnsRecord × Option Err) × σ
  | [], results, st => ((results, none), st)
  | r :: rest, results, st =>
    match findRecordWithValue existingRecords r with
    | none => ((results, some (Err.recordNotFound r)), st)
    | some existingRecord =>
      match C.deleteRecord zid existingRecord.id st with
      | (Except.error e, st1) => ((results, some e), st1)
      | (Except.ok _, st1) => deleteLoop C zid existingRecords rest (results ++ [r]) st1

/-- `DeleteRecords` (provider.go): resolve the zone, fetch the existing
records once, then run the delete loop. -/
def DeleteRecords {σ : Type} (C : Client σ) (zone : String)
    (recs : List LibdnsRecord) (st : σ) : (List LibdnsRecord × Option Err) × σ :=
  match C.getZoneByName zone st with
  | (Except.error e, st1) => (([], some e), st1)
  | (Except.ok zoneDetails, st1) =>
    match C.getRecords zoneDetails.id st1 with
    | (Except.error e, st2) => (([], some e), st2)
    | (Except.ok existingRecords, st2) =>
      deleteLoop C zoneDetails.id existingRecords recs [] st2

/-- State of the in-memory dynv6 server used to instantiate the abstract
collaborator: one zone, its record list, and the next fresh record ID. -/
structure ServerState where
  zoneName : String
  zoneId : Int
  records : List record
  nextId : Int
deriving DecidableEq, Repr

/-- Replace every record carrying the given ID by `u`. -/
def replaceById (l : List record) (rid : Int) (u : record) : List record :=
  l.map (fun e => if e.id == rid then u else e)

/-- An in-memory dynv6 server: zone lookup by name, create assigns the next
fresh ID, update replaces by ID, delete removes by ID. -/
def fakeClient : Client ServerState where
  getZoneByName := fun zone st =>
    if zone == st.zoneName then (Except.ok (Zone.mk st.zoneId st.zoneName), st)
    else (Except.error Err.zoneNotFound, st)
  getRecords := fun _ st => (Except.ok st.records, st)
  addRecord := fun _ r st =>
    let created := record.mk st.nextId r.name r.type r.data r.ttl
    (Except.ok created,
      ServerState.mk st.zoneName st.zoneId (st.records ++ [created]) (st.nextId + 1))
  updateRecord := fun _ u st =>
    (Except.ok u,
      ServerState.mk st.zoneName st.zoneId (replaceById st.records u.id u) st.nextId)
  deleteRecord := fun _ rid st =>
    (Except.ok (),
      ServerState.mk st.zoneName st.zoneId
        (st.records.filter (fun e => !(e.id == rid))) st.nextId)

/-- The (Name, Type) matching key of a libdns record, as used by the spec's
matching algorithm. -/
def keyOf (r : LibdnsRecord) : String × String := ((rrOf r).name, (rrOf r).type)

/-- C5: translation from the generic to the provider representation fails
with the unsupported-record-type error exactly when the input is not
concretely a `libdns.RR`; on a `libdns.RR` it succeeds and carries over
Name, Type, Data and TTL exactly (the ID is the zero value). -/
theorem fromLibdnsRecord_supported_exact :
    (∀ zone view t, fromLibdnsRecord zone (LibdnsRecord.other view t) =
      Except.error (Err.unsupportedRecordType t)) ∧
    (∀ zone v, fromLibdnsRecord zone (LibdnsRecord.rr v) =
      Except.ok (record.mk 0 v.name v.type v.data v.ttl)) := by
  constructor
  · intro zone view t
    rfl
  · intro zone v
    rfl

/-- C9: round-trip of the record translation. Translating a supported
generic record (a `libdns.RR`) to the provider representation and back
yields the identical generic record; and for every provider record,
`toLibdnsRecord` preserves Name, Type, Data and TTL, dropping only the ID. -/
theorem record_translation_roundtrip :
    (∀ zone v, Except.map record.toLibdnsRecord (fromLibdnsRecord zone (LibdnsRecord.rr v)) =
      Except.ok (LibdnsRecord.rr v)) ∧
    (∀ p : record, p.toLibdnsRecord = LibdnsRecord.rr (RR.mk p.name p.type p.data p.ttl)) := by
  constructor
  · intro zone v
    rfl
  · intro p
    rfl

/-- C1: for a requested record whose (Name, Type) matches an existing record
`ex` in the snapshot, the SetRecords loop body issues exactly an update call
carrying `ex`'s ID, Name, Type and TTL unchanged, with Data replaced by the
requested record's extracted data; and for every supported record the
extracted data is the record's Data field. -/
theorem setStep_match_updates_data_only {σ : Type} (C : Client σ) (zone : String)
    (zid : Int) (snap : List record) (r : LibdnsRecord) (ex : record) (st : σ)
    (h : findRecord snap r = some ex) :
    setStep C zone zid snap r st =
      C.updateRecord zid (record.mk ex.id ex.name ex.type (getDataFromRecord r) ex.ttl) st ∧
    (∀ v, getDataFromRecord (LibdnsRecord.rr v) = v.data) := by
  constructor
  · unfold setStep
    rw [h]
  · intro v
    rfl

/-- Witness for C1 at a concrete matching input. -/
theorem setStep_match_updates_data_only_witness :
    setStep fakeClient "example.org" 1 [record.mk 7 "www" "A" "1.2.3.4" 300]
        (LibdnsRecord.rr (RR.mk "www" "A" "5.6.7.8" 60))
        (ServerState.mk "example.org" 1 [record.mk 7 "www" "A" "1.2.3.4" 300] 8) =
      fakeClient.updateRecord 1
        (record.mk 7 "www" "A"
          (getDataFromRecord (LibdnsRecord.rr (RR.mk "www" "A" "5.6.7.8" 60))) 300)
        (ServerState.mk "example.org" 1 [record.mk 7 "www" "A" "1.2.3.4" 300] 8) ∧
    (∀ v, getDataFromRecord (LibdnsRecord.rr v) = v.data) :=
  setStep_match_updates_data_only fakeClient "example.org" 1
    [record.mk 7 "www" "A" "1.2.3.4" 300]
    (LibdnsRecord.rr (RR.mk "www" "A" "5.6.7.8" 60)) (record.mk 7 "www" "A" "1.2.3.4" 300)
    (ServerState.mk "example.org" 1 [record.mk 7 "www" "A" "1.2.3.4" 300] 8)
    (by decide)

/-- C2: for a requested record with no (Name, Type) match in the snapshot,
the SetRecords loop body translates the record and issues a create call for
the translation; and the loop appends the translation of the record returned
by the create call to the result list before continuing. -/
theorem setStep_no_match_creates {σ : Type} (C : Client σ) (zone : String)
    (zid : Int) (snap : List record) (r : LibdnsRecord) (nr : record) (st : σ)
    (hfind : findRecord snap r = none)
    (htr : fromLibdnsRecord zone r = Except.ok nr) :
    setStep C zone zid snap r st = C.addRecord zid nr st ∧
    (∀ created st1 rest acc, C.addRecord zid nr st = (Except.ok created, st1) →
      setLoop C zone zid snap (r :: rest) acc st =
        setLoop C zone zid snap rest (acc ++ [created.toLibdnsRecord]) st1) := by
  have hstep : setStep C zone zid snap r st = C.addRecord zid nr st := by
    unfold setStep
    rw [hfind, htr]
  refine ⟨hstep, ?_⟩
  intro created st1 rest acc hadd
  show (match setStep C zone zid snap r st with
    | (Except.error e, st2) => ((acc, some e), st2)
    | (Except.ok result, st2) =>
      setLoop C zone zid snap rest (acc ++ [result.toLibdnsRecord]) st2) =
    setLoop C zone zid snap rest (acc ++ [created.toLibdnsRecord]) st1
  rw [hstep, hadd]

/-- Witness for C2 at a concrete non-matching input. -/
theorem setStep_no_match_creates_witness :
    setStep fakeClient "example.org" 1 []
        (LibdnsRecord.rr (RR.mk "www" "A" "5.6.7.8" 60))
        (ServerState.mk "example.org" 1 [] 0) =
      fakeClient.addRecord 1 (record.mk 0 "www" "A" "5.6.7.8" 60)
        (ServerState.mk "example.org" 1 [] 0) ∧
    (∀ created st1 rest acc,
      fakeClient.addRecord 1 (record.mk 0 "www" "A" "5.6.7.8" 60)
          (ServerState.mk "example.org" 1 [] 0) = (Except.ok created, st1) →
      setLoop fakeClient "example.org" 1 []
          (LibdnsRecord.rr (RR.mk "www" "A" "5.6.7.8" 60) :: rest) acc
          (ServerState.mk "example.org" 1 [] 0) =
        setLoop fakeClient "example.org" 1 [] rest (acc ++ [created.toLibdnsRecord]) st1) :=
  setStep_no_match_creates fakeClient "example.org" 1 []
    (LibdnsRecord.rr (RR.mk "www" "A" "5.6.7.8" 60)) (record.mk 0 "www" "A" "5.6.7.8" 60)
    (ServerState.mk "example.org" 1 [] 0) (by decide) (by rfl)

/-- C8: the unsupported-record-type check is bypassed on the update path.
For a record that is not concretely a `libdns.RR` but whose (Name, Type)
matches an existing record, the loop body issues an update overwriting the
existing record's Data with the empty string instead of failing, even though
the translation of that same record fails with the unsupported-record-type
error. -/
theorem setStep_other_bypasses_type_check {σ : Type} (C : Client σ) (zone : String)
    (zid : Int) (snap : List record) (view : RR) (t : String) (ex : record) (st : σ)
    (h : findRecord snap (LibdnsRecord.other view t) = some ex) :
    setStep C zone zid snap (LibdnsRecord.other view t) st =
      C.updateRecord zid (record.mk ex.id ex.name ex.type "" ex.ttl) st ∧
    fromLibdnsRecord zone (LibdnsRecord.other view t) =
      Except.error (Err.unsupportedRecordType t) := by
  constructor
  · unfold setStep
    rw [h]
    rfl
  · rfl

/-- Witness for C8 at a concrete input: a non-RR record matching on
(Name, Type) leads to an update request carrying empty Data. -/
theorem setStep_other_bypasses_type_check_witness :
    setStep fakeClient "example.org" 1 [record.mk 7 "www" "A" "1.2.3.4" 300]
        (LibdnsRecord.other (RR.mk "www" "A" "5.6.7.8" 60) "libdns.Address")
        (ServerState.mk "example.org" 1 [record.mk 7 "www" "A" "1.2.3.4" 300] 8) =
      fakeClient.updateRecord 1 (record.mk 7 "www" "A" "" 300)
        (ServerState.mk "example.org" 1 [record.mk 7 "www" "A" "1.2.3.4" 300] 8) ∧
    fromLibdnsRecord "example.org"
        (LibdnsRecord.other (RR.mk "www" "A" "5.6.7.8" 60) "libdns.Address") =
      Except.error (Err.unsupportedRecordType "libdns.Address") :=
  setStep_other_bypasses_type_check fakeClient "example.org" 1
    [record.mk 7 "www" "A" "1.2.3.4" 300] (RR.mk "www" "A" "5.6.7.8" 60) "libdns.Address"
    (record.mk 7 "www" "A" "1.2.3.4" 300)
    (ServerState.mk "example.org" 1 [record.mk 7 "www" "A" "1.2.3.4" 300] 8)
    (by decide)

/-- C4: the Append and Set loops process records in order and stop at the
first failing step (translation failure or collaborator failure), returning
exactly the results accumulated before the failure together with that first
error; the outcome does not depend on the records after the failing one,
which are never attempted. -/
theorem batch_stops_at_first_failure {σ : Type} (C : Client σ) (zone : String)
    (zid : Int) (snap : List record) :
    (∀ (pre : List LibdnsRecord) (r : LibdnsRecord) (rest acc : List LibdnsRecord)
        (st : σ) (res1 : List LibdnsRecord) (st1 : σ) (e : Err) (st2 : σ),
      appendLoop C zone zid pre acc st = ((res1, none), st1) →
      appendStep C zone zid r st1 = (Except.error e, st2) →
      appendLoop C zone zid (pre ++ r :: rest) acc st = ((res1, some e), st2)) ∧
    (∀ (pre : List LibdnsRecord) (r : LibdnsRecord) (rest acc : List LibdnsRecord)
        (st : σ) (res1 : List LibdnsRecord) (st1 : σ) (e : Err) (st2 : σ),
      setLoop C zone zid snap pre acc st = ((res1, none), st1) →
      setStep C zone zid snap r st1 = (Except.error e, st2) →
      setLoop C zone zid snap (pre ++ r :: rest) acc st = ((res1, some e), st2)) := by
  constructor
  · intro pre r rest
    induction pre with
    | nil =>
      intro acc st res1 st1 e st2 h1 h2
      simp only [appendLoop, Prod.mk.injEq] at h1
      obtain ⟨⟨hres, -⟩, hst⟩ := h1
      subst hres hst
      simp only [List.nil_append, appendLoop, h2]
    | cons p ps ih =>
      intro acc st res1 st1 e st2 h1 h2
      simp only [appendLoop] at h1
      cases hstep : appendStep C zone zid p st with
      | mk fst stP =>
        cases fst with
        | error e0 =>
          rw [hstep] at h1
          simp only [Prod.mk.injEq] at h1
          exact absurd h1.1.2 (by simp)
        | ok result =>
          rw [hstep] at h1
          simp only [List.cons_append, appendLoop, hstep]
          exact ih (acc ++ [result.toLibdnsRecord]) stP res1 st1 e st2 h1 h2
  · intro pre r rest
    induction pre with
    | nil =>
      intro acc st res1 st1 e st2 h1 h2
      simp only [setLoop, Prod.mk.injEq] at h1
      obtain ⟨⟨hres, -⟩, hst⟩ := h1
      subst hres hst
      simp only [List.nil_append, setLoop, h2]
    | cons p ps ih =>
      intro acc st res1 st1 e st2 h1 h2
      simp only [setLoop] at h1
      cases hstep : setStep C zone zid snap p st with
      | mk fst stP =>
        cases fst with
        | error e0 =>
          rw [hstep] at h1
          simp only [Prod.mk.injEq] at h1
          exact absurd h1.1.2 (by simp)
        | ok result =>
          rw [hstep] at h1
          simp only [List.cons_append, setLoop, hstep]
          exact ih (acc ++ [result.toLibdnsRecord]) stP res1 st1 e st2 h1 h2

/-- Witness for C4: with an empty successful prefix and a record whose
translation fails, both loops return the empty result list and the
unsupported-record-type error, for any suffix (here the empty one). -/
theorem batch_stops_at_first_failure_witness :
    appendLoop fakeClient "z" 1
        ([] ++ LibdnsRecord.other (RR.mk "a" "A" "x" 0) "libdns.Address" :: []) []
        (ServerState.mk "z" 1 [] 0) =
      (([], some (Err.unsupportedRecordType "libdns.Address")),
        ServerState.mk "z" 1 [] 0) ∧
    setLoop fakeClient "z" 1 []
        ([] ++ LibdnsRecord.other (RR.mk "a" "A" "x" 0) "libdns.Address" :: []) []
        (ServerState.mk "z" 1 [] 0) =
      (([], some (Err.unsupportedRecordType "libdns.Address")),
        ServerState.mk "z" 1 [] 0) :=
  And.intro
    ((batch_stops_at_first_failure fakeClient "z" 1 []).1 []
      (LibdnsRecord.other (RR.mk "a" "A" "x" 0) "libdns.Address") [] []
      (ServerState.mk "z" 1 [] 0) [] (ServerState.mk "z" 1 [] 0)
      (Err.unsupportedRecordType "libdns.Address") (ServerState.mk "z" 1 [] 0)
      (by rfl) (by rfl))
    ((batch_stops_at_first_failure fakeClient "z" 1 []).2 []
      (LibdnsRecord.other (RR.mk "a" "A" "x" 0) "libdns.Address") [] []
      (ServerState.mk "z" 1 [] 0) [] (ServerState.mk "z" 1 [] 0)
      (Err.unsupportedRecordType "libdns.Address") (ServerState.mk "z" 1 [] 0)
      (by rfl) (by rfl))

/-- C10: DeleteRecords returns the requested generic records themselves: the
returned list is a prefix of the input list (the records whose iterations
completed), and when no error is returned it is the whole input list. -/
theorem deleteRecords_returns_input_prefix {σ : Type} (C : Client σ) (zone : String)
    (recs : List LibdnsRecord) (st : σ) :
    ∃ n, n ≤ recs.length ∧
      (DeleteRecords C zone recs st).1.1 = recs.take n ∧
      ((DeleteRecords C zone recs st).1.2 = none →
        (DeleteRecords C zone recs st).1.1 = recs) := by
  have key : ∀ (l : List LibdnsRecord) (zid : Int) (snap : List record)
      (acc : List LibdnsRecord) (s : σ),
      ∃ n, n ≤ l.length ∧
        (deleteLoop C zid snap l acc s).1.1 = acc ++ l.take n ∧
        ((deleteLoop C zid snap l acc s).1.2 = none → n = l.length) := by
    intro l
    induction l with
    | nil =>
      intro zid snap acc s
      exact ⟨0, by simp [deleteLoop]⟩
    | cons r rest ih =>
      intro zid snap acc s
      cases hf : findRecordWithValue snap r with
      | none =>
        refine ⟨0, by simp, ?_, ?_⟩
        · simp [deleteLoop, hf]
        · intro h
          simp [deleteLoop, hf] at h
      | some ex =>
        cases hdel : C.deleteRecord zid ex.id s with
        | mk fst sd =>
          cases fst with
          | error e =>
            refine ⟨0, by simp, ?_, ?_⟩
            · simp [deleteLoop, hf, hdel]
            · intro h
              simp [deleteLoop, hf, hdel] at h
          | ok u =>
            obtain ⟨n, hn, h1, h2⟩ := ih zid snap (acc ++ [r]) sd
            refine ⟨n + 1, by simpa using Nat.succ_le_succ hn, ?_, ?_⟩
            · simp only [deleteLoop, hf, hdel]
              rw [h1]
              simp [List.take_succ_cons]
            · intro h
              simp only [deleteLoop, hf, hdel] at h
              simp [h2 h]
  cases hz : C.getZoneByName zone st with
  | mk fz stz =>
    cases fz with
    | error e =>
      refine ⟨0, by simp, ?_, ?_⟩
      · simp [DeleteRecords, hz]
      · intro h
        simp [DeleteRecords, hz] at h
    | ok zoneDetails =>
      cases hg : C.getRecords zoneDetails.id stz with
      | mk fg stg =>
        cases fg with
        | error e =>
          refine ⟨0, by simp, ?_, ?_⟩
          · simp [DeleteRecords, hz, hg]
          · intro h
            simp [DeleteRecords, hz, hg] at h
        | ok existingRecords =>
          obtain ⟨n, hn, h1, h2⟩ := key recs zoneDetails.id existingRecords [] stg
          refine ⟨n, hn, ?_, ?_⟩
          · simp only [DeleteRecords, hz, hg]
            simpa using h1
          · intro h
            simp only [DeleteRecords, hz, hg] at h ⊢
            rw [show (deleteLoop C zoneDetails.id existingRecords recs [] stg).1.1
                = recs.take n by simpa using h1, h2 h, List.take_length]

/-- Witness for C10 at a concrete input where every deletion succeeds. -/
theorem deleteRecords_returns_input_prefix_witness :
    ∃ n, n ≤ [LibdnsRecord.rr (RR.mk "www" "A" "1.2.3.4" 300)].length ∧
      (DeleteRecords fakeClient "z" [LibdnsRecord.rr (RR.mk "www" "A" "1.2.3.4" 300)]
          (ServerState.mk "z" 1 [record.mk 7 "www" "A" "1.2.3.4" 300] 8)).1.1 =
        [LibdnsRecord.rr (RR.mk "www" "A" "1.2.3.4" 300)].take n ∧
      ((DeleteRecords fakeClient "z" [LibdnsRecord.rr (RR.mk "www" "A" "1.2.3.4" 300)]
          (ServerState.mk "z" 1 [record.mk 7 "www" "A" "1.2.3.4" 300] 8)).1.2 = none →
        (DeleteRecords fakeClient "z" [LibdnsRecord.rr (RR.mk "www" "A" "1.2.3.4" 300)]
          (ServerState.mk "z" 1 [record.mk 7 "www" "A" "1.2.3.4" 300] 8)).1.1 =
        [LibdnsRecord.rr (RR.mk "www" "A" "1.2.3.4" 300)]) :=
  deleteRecords_returns_input_prefix fakeClient "z"
    [LibdnsRecord.rr (RR.mk "www" "A" "1.2.3.4" 300)]
    (ServerState.mk "z" 1 [record.mk 7 "www" "A" "1.2.3.4" 300] 8)

/-- C7: GetRecords resolves the zone, fetches its records and returns one
generic record per provider record in the provider's order with Name, Type,
Data and TTL preserved; if zone resolution or record listing fails, it
returns the collaborator's error and no record list. -/
theorem getRecords_lists_zone {σ : Type} (C : Client σ) (zone : String) (st : σ) :
    (∀ e st1, C.getZoneByName zone st = (Except.error e, st1) →
      GetRecords C zone st = (([], some e), st1)) ∧
    (∀ z st1 e st2, C.getZoneByName zone st = (Except.ok z, st1) →
      C.getRecords z.id st1 = (Except.error e, st2) →
      GetRecords C zone st = (([], some e), st2)) ∧
    (∀ z st1 rs st2, C.getZoneByName zone st = (Except.ok z, st1) →
      C.getRecords z.id st1 = (Except.ok rs, st2) →
      GetRecords C zone st = ((rs.map record.toLibdnsRecord, none), st2) ∧
      (rs.map record.toLibdnsRecord).length = rs.length ∧
      (∀ p, p ∈ rs →
        p.toLibdnsRecord = LibdnsRecord.rr (RR.mk p.name p.type p.data p.ttl))) := by
  refine ⟨?_, ?_, ?_⟩
  · intro e st1 h1
    simp [GetRecords, h1]
  · intro z st1 e st2 h1 h2
    simp [GetRecords, h1, h2]
  · intro z st1 rs st2 h1 h2
    refine ⟨by simp [GetRecords, h1, h2], by simp, ?_⟩
    intro p hp
    rfl

/-- Witness for C7: the success case at a concrete server state. -/
theorem getRecords_lists_zone_witness :
    GetRecords fakeClient "z" (ServerState.mk "z" 1 [record.mk 7 "www" "A" "1.2.3.4" 300] 8) =
      (([record.mk 7 "www" "A" "1.2.3.4" 300].map record.toLibdnsRecord, none),
        ServerState.mk "z" 1 [record.mk 7 "www" "A" "1.2.3.4" 300] 8) ∧
    ([record.mk 7 "www" "A" "1.2.3.4" 300].map record.toLibdnsRecord).length =
      [record.mk 7 "www" "A" "1.2.3.4" 300].length ∧
    (∀ p, p ∈ [record.mk 7 "www" "A" "1.2.3.4" 300] →
      p.toLibdnsRecord = LibdnsRecord.rr (RR.mk p.name p.type p.data p.ttl)) :=
  (getRecords_lists_zone fakeClient "z"
      (ServerState.mk "z" 1 [record.mk 7 "www" "A" "1.2.3.4" 300] 8)).2.2
    (Zone.mk 1 "z") (ServerState.mk "z" 1 [record.mk 7 "www" "A" "1.2.3.4" 300] 8)
    [record.mk 7 "www" "A" "1.2.3.4" 300]
    (ServerState.mk "z" 1 [record.mk 7 "www" "A" "1.2.3.4" 300] 8)
    (by rfl) (by rfl)

theorem fake_getZoneByName_self (st : ServerState) :
    fakeClient.getZoneByName st.zoneName st =
      (Except.ok (Zone.mk st.zoneId st.zoneName), st) := by
  simp [fakeClient]

theorem fake_getZoneByName_mk (zn : String) (zi : Int) (l : List record) (n : Int) :
    fakeClient.getZoneByName zn (ServerState.mk zn zi l n) =
      (Except.ok (Zone.mk zi zn), ServerState.mk zn zi l n) := by
  simp [fakeClient]

theorem fake_getRecords (zid : Int) (st : ServerState) :
    fakeClient.getRecords zid st = (Except.ok st.records, st) := rfl

theorem fake_deleteRecord (zid rid : Int) (st : ServerState) :
    fakeClient.deleteRecord zid rid st =
      (Except.ok (),
        ServerState.mk st.zoneName st.zoneId
          (st.records.filter (fun e => !(e.id == rid))) st.nextId) := rfl

theorem fake_addRecord (zid : Int) (r : record) (st : ServerState) :
    fakeClient.addRecord zid r st =
      (Except.ok (record.mk st.nextId r.name r.type r.data r.ttl),
        ServerState.mk st.zoneName st.zoneId
          (st.records ++ [record.mk st.nextId r.name r.type r.data r.ttl])
          (st.nextId + 1)) := rfl

theorem fake_updateRecord (zid : Int) (u : record) (st : ServerState) :
    fakeClient.updateRecord zid u st =
      (Except.ok u,
        ServerState.mk st.zoneName st.zoneId (replaceById st.records u.id u)
          st.nextId) := rfl

/-- C3: on the in-memory server, when every requested record before `r` has a
(Name, Type, Data) match in the snapshot and `r` has none, DeleteRecords on
the list with `r` and any suffix stops at `r`: it returns the records already
deleted for the prefix together with the record-not-found error, the prefix
iterations themselves ran without error, and the failing iteration issues no
delete — the final server state is exactly the state after processing the
prefix alone (with an empty prefix, the zone is unchanged). -/
theorem deleteRecords_stops_at_missing (st : ServerState) (zone : String)
    (pre : List LibdnsRecord) (r : LibdnsRecord) (rest : List LibdnsRecord)
    (hz : zone = st.zoneName)
    (hpre : ∀ p, p ∈ pre → (findRecordWithValue st.records p).isSome = true)
    (hr : findRecordWithValue st.records r = none) :
    DeleteRecords fakeClient zone (pre ++ r :: rest) st =
      (((DeleteRecords fakeClient zone pre st).1.1, some (Err.recordNotFound r)),
        (DeleteRecords fakeClient zone pre st).2) ∧
    (DeleteRecords fakeClient zone pre st).1.2 = none := by
  subst hz
  have loop : ∀ (l : List LibdnsRecord) (zid : Int) (acc : List LibdnsRecord)
      (s : ServerState), (∀ p, p ∈ l → (findRecordWithValue st.records p).isSome = true) →
      deleteLoop fakeClient zid st.records (l ++ r :: rest) acc s =
        (((deleteLoop fakeClient zid st.records l acc s).1.1,
            some (Err.recordNotFound r)),
          (deleteLoop fakeClient zid st.records l acc s).2) ∧
      (deleteLoop fakeClient zid st.records l acc s).1.2 = none := by
    intro l
    induction l with
    | nil =>
      intro zid acc s _
      constructor
      · simp [deleteLoop, hr]
      · simp [deleteLoop]
    | cons p ps ih =>
      intro zid acc s hl
      obtain ⟨ex, hex⟩ := Option.isSome_iff_exists.mp (hl p (by simp))
      have hnext : ∀ q, q ∈ ps → (findRecordWithValue st.records q).isSome = true :=
        fun q hq => hl q (by simp [hq])
      simp only [List.cons_append, deleteLoop, hex, fake_deleteRecord]
      exact ih zid (acc ++ [p])
        (ServerState.mk s.zoneName s.zoneId
          (s.records.filter (fun e => !(e.id == ex.id))) s.nextId) hnext
  have run : DeleteRecords fakeClient st.zoneName (pre ++ r :: rest) st =
      deleteLoop fakeClient st.zoneId st.records (pre ++ r :: rest) [] st := by
    simp [DeleteRecords, fake_getZoneByName_self, fake_getRecords]
  have runPre : DeleteRecords fakeClient st.zoneName pre st =
      deleteLoop fakeClient st.zoneId st.records pre [] st := by
    simp [DeleteRecords, fake_getZoneByName_self, fake_getRecords]
  rw [run, runPre]
  exact loop pre st.zoneId [] st hpre

/-- Witness for C3: a delete request with no matching record, against a
server holding one unrelated record, fails with record-not-found and leaves
the state untouched. -/
theorem deleteRecords_stops_at_missing_witness :
    DeleteRecords fakeClient "z"
        ([] ++ LibdnsRecord.rr (RR.mk "mail" "MX" "10 mx" 300) :: [])
        (ServerState.mk "z" 1 [record.mk 7 "www" "A" "1.2.3.4" 300] 8) =
      (((DeleteRecords fakeClient "z" []
            (ServerState.mk "z" 1 [record.mk 7 "www" "A" "1.2.3.4" 300] 8)).1.1,
          some (Err.recordNotFound (LibdnsRecord.rr (RR.mk "mail" "MX" "10 mx" 300)))),
        (DeleteRecords fakeClient "z" []
          (ServerState.mk "z" 1 [record.mk 7 "www" "A" "1.2.3.4" 300] 8)).2) ∧
    (DeleteRecords fakeClient "z" []
      (ServerState.mk "z" 1 [record.mk 7 "www" "A" "1.2.3.4" 300] 8)).1.2 = none :=
  deleteRecords_stops_at_missing
    (ServerState.mk "z" 1 [record.mk 7 "www" "A" "1.2.3.4" 300] 8) "z" []
    (LibdnsRecord.rr (RR.mk "mail" "MX" "10 mx" 300)) [] (by rfl)
    (by intro p hp; cases hp) (by decide)

theorem find?_map_invariant {α : Type} (p : α → Bool) (g : α → α) :
    ∀ l : List α, (∀ e, e ∈ l → p (g e) = p e) →
      (∀ e, e ∈ l → p e = true → g e = e) →
      List.find? p (l.map g) = List.find? p l := by
  intro l
  induction l with
  | nil => intro _ _; rfl
  | cons a tl ih =>
    intro h1 h2
    simp only [List.map_cons]
    cases hpa : p a with
    | true =>
      rw [List.find?_cons_of_pos _ (by rw [h1 a (by simp)]; exact hpa),
        List.find?_cons_of_pos _ hpa, h2 a (by simp) hpa]
    | false =>
      rw [List.find?_cons_of_neg _ (by rw [h1 a (by simp), hpa]; simp),
        List.find?_cons_of_neg _ (by rw [hpa]; simp)]
      exact ih (fun e he => h1 e (by simp [he])) (fun e he hp => h2 e (by simp [he]) hp)

theorem find?_replaceById (p : record → Bool) (u : record) :
    ∀ (l : List record) (ex : record), (l.map record.id).Nodup →
      List.find? p l = some ex → p u = true →
      List.find? p (replaceById l ex.id u) = some u := by
  intro l
  induction l with
  | nil => intro ex _ h _; cases h
  | cons a tl ih =>
    intro ex hnodup hfind hpu
    simp only [List.map_cons] at hnodup
    obtain ⟨hnotin, htl⟩ := List.nodup_cons.mp hnodup
    cases hpa : p a with
    | true =>
      rw [List.find?_cons_of_pos _ hpa] at hfind
      injection hfind with h
      subst h
      simp only [replaceById, List.map_cons, beq_self_eq_true, if_true]
      rw [List.find?_cons_of_pos _ hpu]
    | false =>
      rw [List.find?_cons_of_neg _ (by rw [hpa]; simp)] at hfind
      have hmem : ex ∈ tl := List.mem_of_find?_eq_some hfind
      have hif : (a.id == ex.id) = false := by
        rw [beq_eq_false_iff_ne]
        intro h
        exact hnotin (h ▸ List.mem_map_of_mem record.id hmem)
      simp only [replaceById, List.map_cons, hif]
      rw [if_neg (by simp), List.find?_cons_of_neg _ (by rw [hpa]; simp)]
      exact ih ex htl hfind hpu

theorem replaceById_map_id (l : List record) (rid : Int) (u : record)
    (hid : u.id = rid) : (replaceById l rid u).map record.id = l.map record.id := by
  simp only [replaceById, List.map_map]
  apply List.map_congr_left
  intro a _
  simp only [Function.comp_apply]
  by_cases h : a.id = rid
  · simp [beq_iff_eq, h, hid]
  · simp [beq_iff_eq, h]

theorem replaceById_eq_self (l : List record) (ex : record)
    (hnodup : (l.map record.id).Nodup) (hex : ex ∈ l) :
    replaceById l ex.id ex = l := by
  have hcong : ∀ a, a ∈ l → (if a.id == ex.id then ex else a) = a := by
    intro a ha
    by_cases h : a.id = ex.id
    · have ha2 : a = ex := List.inj_on_of_nodup_map hnodup ha hex h
      simp [ha2]
    · simp [beq_iff_eq, h]
  calc replaceById l ex.id ex = l.map (fun a => a) := List.map_congr_left hcong
    _ = l := by simp

theorem findRecord_replaceById_of_ne (l : List record) (q r : LibdnsRecord)
    (ex u : record) (hnodup : (l.map record.id).Nodup)
    (hfind : findRecord l r = some ex)
    (hname : u.name = ex.name) (htype : u.type = ex.type)
    (hkey : keyOf q ≠ keyOf r) :
    findRecord (replaceById l ex.id u) q = findRecord l q := by
  have hexmem : ex ∈ l := List.mem_of_find?_eq_some hfind
  have hexkey : ex.name = (rrOf r).name ∧ ex.type = (rrOf r).type := by
    have h3 := List.find?_some hfind
    simpa [Bool.and_eq_true, beq_iff_eq] using h3
  simp only [findRecord, replaceById]
  apply find?_map_invariant
  · intro e he
    by_cases h : e.id = ex.id
    · have he2 : e = ex := List.inj_on_of_nodup_map hnodup he hexmem h
      subst he2
      simp [beq_iff_eq, h, hname, htype]
    · simp [beq_iff_eq, h]
  · intro e he hpe
    by_cases h : e.id = ex.id
    · exfalso
      have he2 : e = ex := List.inj_on_of_nodup_map hnodup he hexmem h
      subst he2
      simp only [Bool.and_eq_true, beq_iff_eq] at hpe
      exact hkey (by simp [keyOf, ← hpe.1, ← hpe.2, hexkey.1, hexkey.2])
    · simp [beq_iff_eq, h]

theorem findRecord_replaceById_self (l : List record) (r : LibdnsRecord)
    (ex u : record) (hnodup : (l.map record.id).Nodup)
    (hfind : findRecord l r = some ex)
    (hname : u.name = (rrOf r).name) (htype : u.type = (rrOf r).type) :
    findRecord (replaceById l ex.id u) r = some u := by
  simp only [findRecord] at hfind ⊢
  exact find?_replaceById _ u l ex hnodup hfind (by simp [hname, htype])

theorem findRecord_append_none (l : List record) (r : LibdnsRecord) (x : record)
    (hl : findRecord l r = none) (hname : x.name = (rrOf r).name)
    (htype : x.type = (rrOf r).type) :
    findRecord (l ++ [x]) r = some x := by
  simp only [findRecord] at hl ⊢
  rw [List.find?_append, hl]
  rw [List.find?_cons_of_pos _ (by simp [hname, htype])]
  rfl

theorem findRecord_append_ne (l : List record) (q : LibdnsRecord) (x : record)
    (hkey : ¬(x.name = (rrOf q).name ∧ x.type = (rrOf q).type)) :
    findRecord (l ++ [x]) q = findRecord l q := by
  simp only [findRecord]
  rw [List.find?_append]
  have hx : List.find?
      (fun e => e.name == (rrOf q).name && e.type == (rrOf q).type) [x] = none := by
    rw [List.find?_cons_of_neg _ (by simpa [Bool.and_eq_true, beq_iff_eq] using hkey)]
    rfl
  rw [hx, Option.or_none]

theorem setLoop_fake_first_pass (L0 : List record) (zone zn : String) (zi : Int) :
    ∀ remaining : List LibdnsRecord,
      List.Pairwise (fun a b => keyOf a ≠ keyOf b) remaining →
      ∀ (l : List record) (n : Int) (acc : List LibdnsRecord),
      (∀ r, r ∈ remaining → isRR r = true) →
      (l.map record.id).Nodup →
      (∀ e, e ∈ l → e.id < n) →
      (∀ r, r ∈ remaining → findRecord l r = findRecord L0 r) →
      ∃ res l1 n1,
        setLoop fakeClient zone zi L0 remaining acc (ServerState.mk zn zi l n) =
          ((res, none), ServerState.mk zn zi l1 n1) ∧
        (l1.map record.id).Nodup ∧
        (∀ e, e ∈ l1 → e.id < n1) ∧
        (∀ r, r ∈ remaining →
          ∃ ex, findRecord l1 r = some ex ∧ ex.data = (rrOf r).data) ∧
        (∀ q : LibdnsRecord, (∀ r, r ∈ remaining → keyOf q ≠ keyOf r) →
          findRecord l1 q = findRecord l q) := by
  intro remaining
  induction remaining with
  | nil =>
    intro _ l n acc _ hnodup hbound _
    exact ⟨acc, l, n, rfl, hnodup, hbound, by simp, fun q _ => rfl⟩
  | cons r rest ih =>
    intro hpair l n acc hall hnodup hbound hsnap
    obtain ⟨hhead, hptail⟩ := List.pairwise_cons.mp hpair
    cases r with
    | other view t =>
      exact absurd (hall (LibdnsRecord.other view t) (by simp)) (by simp [isRR])
    | rr v =>
      cases hf : findRecord L0 (LibdnsRecord.rr v) with
      | some ex =>
        have hfl : findRecord l (LibdnsRecord.rr v) = some ex := by
          rw [hsnap _ (by simp)]; exact hf
        have hexmem : ex ∈ l := List.mem_of_find?_eq_some hfl
        have hexkey : ex.name = v.name ∧ ex.type = v.type := by
          have h3 := List.find?_some hfl
          simpa [rrOf, Bool.and_eq_true, beq_iff_eq] using h3
        have hsnap2 : ∀ r2, r2 ∈ rest →
            findRecord (replaceById l ex.id
              (record.mk ex.id ex.name ex.type v.data ex.ttl)) r2 =
            findRecord L0 r2 := by
          intro r2 h2
          rw [findRecord_replaceById_of_ne l r2 (LibdnsRecord.rr v) ex
            (record.mk ex.id ex.name ex.type v.data ex.ttl) hnodup hfl rfl rfl
            (Ne.symm (hhead r2 h2))]
          exact hsnap r2 (by simp [h2])
        have hnodup2 : ((replaceById l ex.id
            (record.mk ex.id ex.name ex.type v.data ex.ttl)).map record.id).Nodup := by
          rw [replaceById_map_id l ex.id
            (record.mk ex.id ex.name ex.type v.data ex.ttl) rfl]
          exact hnodup
        have hbound2 : ∀ e, e ∈ replaceById l ex.id
            (record.mk ex.id ex.name ex.type v.data ex.ttl) → e.id < n := by
          intro e he
          obtain ⟨e0, he0, rfl⟩ := List.mem_map.mp he
          by_cases h : e0.id = ex.id
          · simpa [beq_iff_eq, h] using hbound ex hexmem
          · simpa [beq_iff_eq, h] using hbound e0 he0
        obtain ⟨res, l1, n1, heq, h1, h2, h3, h4⟩ :=
          ih hptail (replaceById l ex.id
              (record.mk ex.id ex.name ex.type v.data ex.ttl)) n
            (acc ++ [(record.mk ex.id ex.name ex.type v.data ex.ttl).toLibdnsRecord])
            (fun r2 h => hall r2 (by simp [h])) hnodup2 hbound2 hsnap2
        refine ⟨res, l1, n1, ?_, h1, h2, ?_, ?_⟩
        · simp only [setLoop, setStep, hf, fake_updateRecord, getDataFromRecord]
          exact heq
        · intro r0 h0
          rcases List.mem_cons.mp h0 with h0 | h0
          · subst h0
            refine ⟨record.mk ex.id ex.name ex.type v.data ex.ttl, ?_, rfl⟩
            rw [h4 (LibdnsRecord.rr v) hhead]
            exact findRecord_replaceById_self l (LibdnsRecord.rr v) ex _ hnodup hfl
              (by simpa [rrOf] using hexkey.1) (by simpa [rrOf] using hexkey.2)
          · exact h3 r0 h0
        · intro q hq
          rw [h4 q (fun r2 h => hq r2 (by simp [h]))]
          exact findRecord_replaceById_of_ne l q (LibdnsRecord.rr v) ex _ hnodup hfl
            rfl rfl (hq (LibdnsRecord.rr v) (by simp))
      | none =>
        have hfl : findRecord l (LibdnsRecord.rr v) = none := by
          rw [hsnap _ (by simp)]; exact hf
        have hnodup2 : ((l ++ [record.mk n v.name v.type v.data v.ttl]).map
            record.id).Nodup := by
          rw [List.map_append, List.nodup_append]
          refine ⟨hnodup, List.nodup_singleton _, ?_⟩
          intro a ha hb
          obtain ⟨e0, he0, rfl⟩ := List.mem_map.mp ha
          simp only [List.map_cons, List.map_nil, List.mem_singleton] at hb
          exact absurd (hb ▸ hbound e0 he0) (lt_irrefl n)
        have hbound2 : ∀ e, e ∈ l ++ [record.mk n v.name v.type v.data v.ttl] →
            e.id < n + 1 := by
          intro e he
          rcases List.mem_append.mp he with h | h
          · exact lt_trans (hbound e h) (lt_add_one n)
          · simp only [List.mem_singleton] at h
            subst h
            exact lt_add_one n
        have hsnap2 : ∀ r2, r2 ∈ rest →
            findRecord (l ++ [record.mk n v.name v.type v.data v.ttl]) r2 =
            findRecord L0 r2 := by
          intro r2 h2
          rw [findRecord_append_ne l r2 _ ?_]
          · exact hsnap r2 (by simp [h2])
          · intro hk
            refine Ne.symm (hhead r2 h2) ?_
            simp only [keyOf, Prod.mk.injEq]
            exact ⟨hk.1.symm, hk.2.symm⟩
        obtain ⟨res, l1, n1, heq, h1, h2, h3, h4⟩ :=
          ih hptail (l ++ [record.mk n v.name v.type v.data v.ttl]) (n + 1)
            (acc ++ [(record.mk n v.name v.type v.data v.ttl).toLibdnsRecord])
            (fun r2 h => hall r2 (by simp [h])) hnodup2 hbound2 hsnap2
        refine ⟨res, l1, n1, ?_, h1, h2, ?_, ?_⟩
        · simp only [setLoop, setStep, hf, fromLibdnsRecord, fake_addRecord]
          exact heq
        · intro r0 h0
          rcases List.mem_cons.mp h0 with h0 | h0
          · subst h0
            refine ⟨record.mk n v.name v.type v.data v.ttl, ?_, rfl⟩
            rw [h4 (LibdnsRecord.rr v) hhead]
            exact findRecord_append_none l (LibdnsRecord.rr v) _ hfl rfl rfl
          · exact h3 r0 h0
        · intro q hq
          rw [h4 q (fun r2 h => hq r2 (by simp [h]))]
          refine findRecord_append_ne l q _ ?_
          intro hk
          refine hq (LibdnsRecord.rr v) (by simp) ?_
          simp only [keyOf, Prod.mk.injEq]
          exact ⟨hk.1.symm, hk.2.symm⟩

theorem setLoop_fake_unchanged (zone zn : String) (zi : Int) :
    ∀ (recs : List LibdnsRecord) (l : List record) (n : Int) (acc : List LibdnsRecord),
      (∀ r, r ∈ recs → isRR r = true) →
      (l.map record.id).Nodup →
      (∀ r, r ∈ recs → ∃ ex, findRecord l r = some ex ∧ ex.data = (rrOf r).data) →
      ∃ res, setLoop fakeClient zone zi l recs acc (ServerState.mk zn zi l n) =
        ((res, none), ServerState.mk zn zi l n) := by
  intro recs
  induction recs with
  | nil => intro l n acc _ _ _; exact ⟨acc, rfl⟩
  | cons r rest ih =>
    intro l n acc hall hnodup hfound
    cases r with
    | other view t =>
      exact absurd (hall (LibdnsRecord.other view t) (by simp)) (by simp [isRR])
    | rr v =>
      obtain ⟨ex, hex, hdata⟩ := hfound (LibdnsRecord.rr v) (by simp)
      have hexmem : ex ∈ l := List.mem_of_find?_eq_some hex
      have hu : record.mk ex.id ex.name ex.type
          (getDataFromRecord (LibdnsRecord.rr v)) ex.ttl = ex := by
        have hd : getDataFromRecord (LibdnsRecord.rr v) = ex.data := by
          simpa [getDataFromRecord, rrOf] using hdata.symm
        rw [hd]
      obtain ⟨res, hres⟩ := ih l n (acc ++ [ex.toLibdnsRecord])
        (fun r2 h => hall r2 (by simp [h])) hnodup
        (fun r2 h => hfound r2 (by simp [h]))
      refine ⟨res, ?_⟩
      simp only [setLoop, setStep, hex, hu, fake_updateRecord,
        replaceById_eq_self l ex hnodup hexmem]
      exact hres

/-- C6 counterexample: with two requested records sharing the same
(Name, Type) but different Data against an initially empty zone, the first
Set call creates two records with Data values 1.1.1.1 and 2.2.2.2, while the
second Set call with the identical list leaves the zone with 2.2.2.2 twice:
the final Data values after the second call differ from those after the
first, so Set is not idempotent as claimed. -/
theorem setRecords_not_idempotent :
    ((SetRecords fakeClient "z"
        [LibdnsRecord.rr (RR.mk "www" "A" "1.1.1.1" 0),
          LibdnsRecord.rr (RR.mk "www" "A" "2.2.2.2" 0)]
        ((SetRecords fakeClient "z"
          [LibdnsRecord.rr (RR.mk "www" "A" "1.1.1.1" 0),
            LibdnsRecord.rr (RR.mk "www" "A" "2.2.2.2" 0)]
          (ServerState.mk "z" 1 [] 0)).2)).2.records.map record.data) ≠
    ((SetRecords fakeClient "z"
        [LibdnsRecord.rr (RR.mk "www" "A" "1.1.1.1" 0),
          LibdnsRecord.rr (RR.mk "www" "A" "2.2.2.2" 0)]
        (ServerState.mk "z" 1 [] 0)).2.records.map record.data) := by
  decide

/-- C6 (amended): calling Set twice with the same record list is idempotent
provided the requested records are all supported and have pairwise distinct
(Name, Type) keys: both calls succeed, and the second call leaves the server
state (records and fresh-ID counter, hence all Data values) exactly as it was
after the first call, creating no duplicate record. -/
theorem setRecords_idempotent_of_distinct_keys (st : ServerState) (zone : String)
    (recs : List LibdnsRecord)
    (hz : zone = st.zoneName)
    (hall : ∀ r, r ∈ recs → isRR r = true)
    (hkeys : List.Pairwise (fun a b => keyOf a ≠ keyOf b) recs)
    (hnodup : (st.records.map record.id).Nodup)
    (hbound : ∀ e, e ∈ st.records → e.id < st.nextId) :
    (SetRecords fakeClient zone recs st).1.2 = none ∧
    (SetRecords fakeClient zone recs
      ((SetRecords fakeClient zone recs st).2)).1.2 = none ∧
    (SetRecords fakeClient zone recs ((SetRecords fakeClient zone recs st).2)).2 =
      (SetRecords fakeClient zone recs st).2 := by
  subst hz
  obtain ⟨zn, zi, l, n⟩ := st
  obtain ⟨res, l1, n1, heq, hnodup1, hbound1, hfound1, -⟩ :=
    setLoop_fake_first_pass l zn zn zi recs hkeys l n [] hall hnodup hbound
      (fun r hr => rfl)
  have run1 : SetRecords fakeClient zn recs (ServerState.mk zn zi l n) =
      ((res, none), ServerState.mk zn zi l1 n1) := by
    simp only [SetRecords, fake_getZoneByName_mk, fake_getRecords]
    exact heq
  obtain ⟨res2, heq2⟩ :=
    setLoop_fake_unchanged zn zn zi recs l1 n1 [] hall hnodup1 hfound1
  have run2 : SetRecords fakeClient zn recs (ServerState.mk zn zi l1 n1) =
      ((res2, none), ServerState.mk zn zi l1 n1) := by
    simp only [SetRecords, fake_getZoneByName_mk, fake_getRecords]
    exact heq2
  simp [run1, run2]

/-- Witness for the amended C6 at a concrete input: one record updating an
existing (Name, Type) match and one record creating a fresh entry. -/
theorem setRecords_idempotent_of_distinct_keys_witness :
    (SetRecords fakeClient "example.org"
      [LibdnsRecord.rr (RR.mk "www" "A" "5.6.7.8" 60),
        LibdnsRecord.rr (RR.mk "mail" "MX" "10 mx" 300)]
      (ServerState.mk "example.org" 1 [record.mk 7 "www" "A" "1.2.3.4" 300] 8)).1.2 =
      none ∧
    (SetRecords fakeClient "example.org"
      [LibdnsRecord.rr (RR.mk "www" "A" "5.6.7.8" 60),
        LibdnsRecord.rr (RR.mk "mail" "MX" "10 mx" 300)]
      ((SetRecords fakeClient "example.org"
        [LibdnsRecord.rr (RR.mk "www" "A" "5.6.7.8" 60),
          LibdnsRecord.rr (RR.mk "mail" "MX" "10 mx" 300)]
        (ServerState.mk "example.org" 1
          [record.mk 7 "www" "A" "1.2.3.4" 300] 8)).2)).1.2 = none ∧
    (SetRecords fakeClient "example.org"
      [LibdnsRecord.rr (RR.mk "www" "A" "5.6.7.8" 60),
        LibdnsRecord.rr (RR.mk "mail" "MX" "10 mx" 300)]
      ((SetRecords fakeClient "example.org"
        [LibdnsRecord.rr (RR.mk "www" "A" "5.6.7.8" 60),
          LibdnsRecord.rr (RR.mk "mail" "MX" "10 mx" 300)]
        (ServerState.mk "example.org" 1
          [record.mk 7 "www" "A" "1.2.3.4" 300] 8)).2)).2 =
    (SetRecords fakeClient "example.org"
      [LibdnsRecord.rr (RR.mk "www" "A" "5.6.7.8" 60),
        LibdnsRecord.rr (RR.mk "mail" "MX" "10 mx" 300)]
      (ServerState.mk "example.org" 1 [record.mk 7 "www" "A" "1.2.3.4" 300] 8)).2 :=
  setRecords_idempotent_of_distinct_keys
    (ServerState.mk "example.org" 1 [record.mk 7 "www" "A" "1.2.3.4" 300] 8)
    "example.org"
    [LibdnsRecord.rr (RR.mk "www" "A" "5.6.7.8" 60),
      LibdnsRecord.rr (RR.mk "mail" "MX" "10 mx" 300)]
    (by rfl) (by decide) (by decide) (by decide) (by decide)

end Dynv6
